import Mathlib

/-!
Verification of the viseme scheduling / mouth-animation engine of
`src/app/page.tsx` (booktalk).

Strings are modelled as `List Char`; JavaScript `number`s are modelled as
exact rationals `ℚ` (the arithmetic the spec describes is exact over ℚ);
the mutable refs of the React component are gathered into explicit state
records below.
-/

namespace BookTalk

/-- The whitespace class of the JavaScript regex `\s` (ASCII part):
space, tab, newline, carriage return, form feed, vertical tab. -/
def isWS (c : Char) : Bool :=
  c = ' ' ∨ c = '\t' ∨ c = '\n' ∨ c = '\x0d' ∨ c = '\x0c' ∨ c = '\x0b'

/-- JavaScript `String.prototype.trim`: drop leading and trailing whitespace. -/
def jsTrim (text : List Char) : List Char :=
  ((text.dropWhile isWS).reverse.dropWhile isWS).reverse

/-- `text.trim().split(/\s+/).filter(Boolean).length || 1` from
`estimateSpeechDuration` / `estimateSyllables`.  Splitting a trimmed string
on runs of whitespace and keeping the non-empty pieces is the same as
splitting on every whitespace character and keeping the non-empty pieces,
which is what `List.splitOnP` gives us. -/
def wordCount (text : List Char) : Nat :=
  let words := (((jsTrim text).splitOnP isWS).filter (fun w => !w.isEmpty)).length
  if words = 0 then 1 else words

/-- `estimateSpeechDuration` (page.tsx lines 558-562):
`max(0.5, (words / wpm) * 60)`. -/
def estimateSpeechDuration (text : List Char) (wpm : ℚ := 160) : ℚ :=
  let words : ℚ := wordCount text
  let minutes := words / wpm
  max (1/2) (minutes * 60)

/-- The vowel class of the regex `[aeiouy]`. -/
def isVowel (c : Char) : Bool :=
  c = 'a' ∨ c = 'e' ∨ c = 'i' ∨ c = 'o' ∨ c = 'u' ∨ c = 'y'

/-- Number of maximal runs of characters satisfying `p`
(= number of matches of the global regex `[p]+`).  The boolean argument
records whether the previous character satisfied `p`. -/
def countRunsAux (p : Char → Bool) : Bool → List Char → Nat
  | _, [] => 0
  | prev, c :: rest =>
    if p c then
      (if prev then countRunsAux p true rest else countRunsAux p true rest + 1)
    else countRunsAux p false rest

/-- Number of maximal runs of characters satisfying `p` in `s`. -/
def countRuns (p : Char → Bool) (s : List Char) : Nat :=
  countRunsAux p false s

/-- `text.toLowerCase().match(/[aeiouy]+/g)` match count. -/
def vowelRunCount (text : List Char) : Nat :=
  countRuns isVowel (text.map Char.toLower)

/-- JavaScript `Math.round`: round half towards positive infinity. -/
def jsRound (q : ℚ) : ℤ :=
  ⌊q + 1/2⌋

/-- `estimateSyllables` (page.tsx lines 564-570): vowel-run count when
positive, otherwise `Math.max(1, Math.round(words * 1.5))`. -/
def estimateSyllables (text : List Char) : Nat :=
  let ms := vowelRunCount text
  if 0 < ms then ms
  else
    let words := wordCount text
    max 1 (jsRound ((words : ℚ) * 1.5)).toNat

/-- The `Viseme` union type of page.tsx line 572. -/
inductive Viseme where
  | «open» | closed | round | wide | neutral
deriving DecidableEq, Repr

/-- `pickVisemeForChunk` (page.tsx lines 574-583).  The chunk is lowercased
first; the regex character classes are kept exactly as in the source,
including the uppercase letters they list (which can never match the
lowercased chunk). -/
def pickVisemeForChunk (chunk : List Char) : Viseme :=
  let c := chunk.map Char.toLower
  if c.any (fun ch => ch = 'o' ∨ ch = 'u' ∨ ch = 'O' ∨ ch = 'A') then .round
  else if c.any (fun ch => ch = 'i' ∨ ch = 'e' ∨ ch = 'a' ∨ ch = 'E' ∨ ch = 'I') then .wide
  else if c.any (fun ch => ch = 'b' ∨ ch = 'm' ∨ ch = 'p' ∨ ch = 'f' ∨ ch = 'v' ∨ ch = 'w'
      ∨ ch = 'M' ∨ ch = 'B' ∨ ch = 'P' ∨ ch = 'F' ∨ ch = 'V') then .closed
  else if c.any (fun ch => ch = 't' ∨ ch = 'd' ∨ ch = 'k' ∨ ch = 'g'
      ∨ ch = 'T' ∨ ch = 'D' ∨ ch = 'K' ∨ ch = 'G') then .closed
  else if c.any (fun ch => ch = 's' ∨ ch = 'S' ∨ ch = 'h' ∨ ch = 'H') then .wide
  else .«open»

/-- The classifier as the spec states it (§4.2): first-match-wins over the
six rules, evaluated case-insensitively.  Kept separate from
`pickVisemeForChunk` so that agreement of code and spec is a theorem. -/
def classifySpec (fragment : List Char) : Viseme :=
  if fragment.any (fun ch => Char.toLower ch = 'o' ∨ Char.toLower ch = 'u') then .round
  else if fragment.any (fun ch => Char.toLower ch = 'i' ∨ Char.toLower ch = 'e'
      ∨ Char.toLower ch = 'a') then .wide
  else if fragment.any (fun ch => Char.toLower ch = 'b' ∨ Char.toLower ch = 'm'
      ∨ Char.toLower ch = 'p' ∨ Char.toLower ch = 'f' ∨ Char.toLower ch = 'v'
      ∨ Char.toLower ch = 'w') then .closed
  else if fragment.any (fun ch => Char.toLower ch = 't' ∨ Char.toLower ch = 'd'
      ∨ Char.toLower ch = 'k' ∨ Char.toLower ch = 'g') then .closed
  else if fragment.any (fun ch => Char.toLower ch = 's' ∨ Char.toLower ch = 'h') then .wide
  else .«open»

/-- One entry of the sequence built by `generateVisemeSequence`:
`{ time: number; viseme: Viseme }`. -/
structure VisemeEvent where
  time : ℚ
  viseme : Viseme
deriving DecidableEq, Repr

/-- `text.slice(-1)`: the last character of the string (empty for the
empty string). -/
def lastCharChunk (text : List Char) : List Char :=
  text.drop (text.length - 1)

/-- The loop body of `generateVisemeSequence`: `n` iterations remain,
`i` is the loop counter, `t` the accumulated start time.
`chunk = text.slice(start, start + chunkSize) || text.slice(-1)`
(an empty slice is falsy in JavaScript). -/
def genLoop (text : List Char) (chunkSize : Nat) (per : ℚ) :
    Nat → Nat → ℚ → List VisemeEvent
  | 0, _, _ => []
  | n + 1, i, t =>
    let start := i * chunkSize
    let chunk0 := (text.drop start).take chunkSize
    let chunk := if chunk0.isEmpty then lastCharChunk text else chunk0
    ⟨t, pickVisemeForChunk chunk⟩ :: genLoop text chunkSize per n (i + 1) (t + per)

/-- `generateVisemeSequence` (page.tsx lines 585-599). -/
def generateVisemeSequence (text : List Char) (totalDuration : ℚ) : List VisemeEvent :=
  let syllables := estimateSyllables text
  let chunkSize := max 1 ⌈(text.length : ℚ) / (syllables : ℚ)⌉₊
  let per := totalDuration / (syllables : ℚ)
  genLoop text chunkSize per syllables 0 0

/-- The morph-target channel names written for the mouth-open value
(page.tsx lines 603-610). -/
def mouthOpenKeys : List String :=
  ["MouthOpen", "mouthOpen", "jawOpen", "JawOpen", "open", "Mouth_Open"]

/-- The morph-target channel names written for the smile value
(page.tsx line 611). -/
def smileKeys : List String :=
  ["Smile", "smile", "mouthSmile", "smile_big"]

/-- The `mouthValue` conditional chain of `applyViseme`
(page.tsx lines 613-622). -/
def mouthValue (viseme : Viseme) : ℚ :=
  if viseme = .closed then 0
  else if viseme = .wide then 0.6
  else if viseme = .«open» then 0.9
  else if viseme = .round then 0.8
  else 0

/-- `smileValue` of `applyViseme` (page.tsx line 623). -/
def smileValue (viseme : Viseme) : ℚ :=
  if viseme = .wide then 0.4 else 0

/-- The mutable refs the playback driver reads and writes:
`visemeRAFRef` (whether an animation-frame callback handle is stored),
`morphTargetTargetsRef.current` (modelled as a total map, unset channels
reading 0), `targetJawOpenRef.current`, `morphMeshesRef.current.length`,
and whether `jawBoneRef.current` is non-null. -/
structure DriverState where
  visemeRAF : Bool
  morphTargetTargets : String → ℚ
  targetJawOpen : ℚ
  morphMeshCount : Nat
  hasJawBone : Bool

/-- `for (const k of keys) map[k] = val`. -/
def setKeys (keys : List String) (val : ℚ) (m : String → ℚ) : String → ℚ :=
  keys.foldl (fun acc k => Function.update acc k val) m

/-- `applyViseme` (page.tsx lines 601-637): write `mouthValue` to every
mouth-open channel, then `smileValue` to every smile channel; if there are
no morph meshes and a jaw bone exists, also set the jaw-open target to
`mouthValue`. -/
def applyViseme (viseme : Viseme) (s : DriverState) : DriverState :=
  { s with
    morphTargetTargets :=
      setKeys smileKeys (smileValue viseme)
        (setKeys mouthOpenKeys (mouthValue viseme) s.morphTargetTargets)
    targetJawOpen :=
      if s.morphMeshCount = 0 ∧ s.hasJawBone then mouthValue viseme
      else s.targetJawOpen }

/-- `stopVisemePlayback` (page.tsx lines 639-646): cancel the pending
animation frame, if any, then reset the mouth by applying `neutral`. -/
def stopVisemePlayback (s : DriverState) : DriverState :=
  let s1 := if s.visemeRAF then { s with visemeRAF := false } else s
  applyViseme .neutral s1

/-- The state of one running playback: the driver refs plus the closure
variables of `startVisemePlayback` (`seq`, `idx`, `start`), and whether the
scheduled callback is the final one that just applies `neutral`. -/
structure PlaybackState where
  driver : DriverState
  seq : List VisemeEvent
  idx : Nat
  startTime : ℚ
  finished : Bool

/-- The `while` loop of `step`: consume every event of the remaining
sequence whose time has been reached, applying its viseme; returns the
list of applied visemes and the resulting driver state. -/
def runDue (elapsed : ℚ) : List VisemeEvent → DriverState → List Viseme × DriverState
  | [], d => ([], d)
  | e :: rest, d =>
    if e.time ≤ elapsed then
      let r := runDue elapsed rest (applyViseme e.viseme d)
      (e.viseme :: r.1, r.2)
    else ([], d)

/-- `startVisemePlayback` (page.tsx lines 648-667): stop any current
playback, record the start timestamp, reset `idx` to 0 and schedule the
first `step` callback. -/
def startVisemePlayback (seq : List VisemeEvent) (now : ℚ) (s : DriverState) :
    PlaybackState :=
  let d := stopVisemePlayback s
  { driver := { d with visemeRAF := true }
    seq := seq
    idx := 0
    startTime := now
    finished := false }

/-- One animation-frame callback of `startVisemePlayback` (`step`,
page.tsx lines 653-664): if the last scheduled callback was the final one,
it just applies `neutral`; otherwise it applies all due events in order
and re-schedules (`performance.now()` is in milliseconds, the event times
in seconds). -/
def step (now : ℚ) (p : PlaybackState) : PlaybackState :=
  if p.finished then { p with driver := applyViseme .neutral p.driver }
  else
    let elapsed := (now - p.startTime) / 1000
    let r := runDue elapsed (p.seq.drop p.idx) p.driver
    let idx := p.idx + r.1.length
    if idx < p.seq.length then
      { p with driver := { r.2 with visemeRAF := true }, idx := idx }
    else
      { p with driver := { r.2 with visemeRAF := true }, idx := idx, finished := true }

/-- The schedule events a `step` call applies (empty for the final
neutral-applying callback). -/
def stepApplied (now : ℚ) (p : PlaybackState) : List Viseme :=
  if p.finished then []
  else (runDue ((now - p.startTime) / 1000) (p.seq.drop p.idx) p.driver).1

/-- A driver at rest: no pending frame, every channel and the jaw at 0. -/
def neutralState : DriverState :=
  { visemeRAF := false
    morphTargetTargets := fun _ => 0
    targetJawOpen := 0
    morphMeshCount := 0
    hasJawBone := false }

/-! ### Helper lemmas -/

theorem setKeys_apply (keys : List String) (val : ℚ) (m : String → ℚ) (k : String) :
    setKeys keys val m k = if k ∈ keys then val else m k := by
  induction keys generalizing m with
  | nil => simp [setKeys]
  | cons a as ih =>
    have h : setKeys (a :: as) val m = setKeys as val (Function.update m a val) := rfl
    rw [h, ih]
    by_cases hka : k = a
    · simp [hka, Function.update_apply]
    · simp [Function.update_apply, hka, List.mem_cons]

theorem applyViseme_targets (v : Viseme) (s : DriverState) (k : String) :
    (applyViseme v s).morphTargetTargets k =
      if k ∈ smileKeys then smileValue v
      else if k ∈ mouthOpenKeys then mouthValue v
      else s.morphTargetTargets k := by
  simp [applyViseme, setKeys_apply]

theorem applyViseme_raf (v : Viseme) (s : DriverState) :
    (applyViseme v s).visemeRAF = s.visemeRAF := rfl

theorem applyViseme_absorb (u v : Viseme) (s : DriverState) :
    applyViseme u (applyViseme v s) = applyViseme u s := by
  cases s with
  | mk raf mt jaw mc jb =>
    simp only [applyViseme, DriverState.mk.injEq]
    refine ⟨trivial, ?_, ?_, trivial, trivial⟩
    · funext k
      simp only [setKeys_apply]
      by_cases h1 : k ∈ smileKeys <;> by_cases h2 : k ∈ mouthOpenKeys <;> simp [h1, h2]
    · by_cases h : mc = 0 ∧ jb <;> simp [h]

theorem stopVisemePlayback_eq (s : DriverState) :
    stopVisemePlayback s = applyViseme .neutral { s with visemeRAF := false } := by
  unfold stopVisemePlayback
  by_cases h : s.visemeRAF = true
  · rw [if_pos h]
  · rw [if_neg h]
    have : s = { s with visemeRAF := false } := by
      cases s with
    | mk raf mt jaw mc jb => simp_all
    rw [← this]

theorem runDue_fst_subset (elapsed : ℚ) :
    ∀ (l : List VisemeEvent) (d : DriverState),
      (runDue elapsed l d).1 ⊆ l.map VisemeEvent.viseme
  | [], d => by simp [runDue]
  | e :: rest, d => by
    rw [runDue]
    by_cases h : e.time ≤ elapsed
    · rw [if_pos h]
      intro v hv
      rcases List.mem_cons.mp hv with h1 | h1
      · simp [h1]
      · exact List.mem_cons_of_mem _ (runDue_fst_subset elapsed rest _ h1)
    · rw [if_neg h]
      intro v hv
      simp at hv

theorem one_le_wordCount (text : List Char) : 1 ≤ wordCount text := by
  simp only [wordCount]
  split <;> omega

theorem jsRound_nat_mul_three_halves (w : Nat) :
    jsRound ((w : ℚ) * 1.5) = ((3 * w + 1) / 2 : Nat) := by
  unfold jsRound
  have hq : (w : ℚ) * 1.5 + 1/2 = ((3 * w + 1 : Nat) : ℚ) / 2 := by
    push_cast
    ring
  rw [hq]
  have h1 : 2 * ((3 * w + 1) / 2) ≤ 3 * w + 1 := by omega
  have h2 : 3 * w + 1 < 2 * ((3 * w + 1) / 2) + 2 := by omega
  rw [Int.floor_eq_iff]
  constructor
  · rw [le_div_iff₀ (by norm_num : (0:ℚ) < 2)]
    exact_mod_cast (show ((3 * w + 1) / 2) * 2 ≤ 3 * w + 1 by omega)
  · rw [div_lt_iff₀ (by norm_num : (0:ℚ) < 2)]
    exact_mod_cast (show 3 * w + 1 < ((3 * w + 1) / 2 + 1) * 2 by omega)

theorem one_le_estimateSyllables (text : List Char) : 1 ≤ estimateSyllables text := by
  simp only [estimateSyllables]
  split
  · omega
  · exact Nat.le_max_left 1 _

theorem char_toNat_ofNat {n : Nat} (h : n < 55296) : (Char.ofNat n).toNat = n := by
  have hv : n.isValidChar := Or.inl h
  rw [Char.ofNat, dif_pos hv]
  rfl

theorem toLower_toNat (c : Char) :
    (Char.toLower c).toNat =
      if c.toNat ≥ 65 ∧ c.toNat ≤ 90 then c.toNat + 32 else c.toNat := by
  simp only [Char.toLower]
  split
  · next h => exact char_toNat_ofNat (by omega)
  · rfl

theorem toLower_toNat_not_upper (c : Char) :
    (Char.toLower c).toNat < 65 ∨ 90 < (Char.toLower c).toNat := by
  rw [toLower_toNat]
  split <;> omega

theorem toLower_ne_of_upper {u : Char} (hu : 65 ≤ u.toNat ∧ u.toNat ≤ 90) (c : Char) :
    Char.toLower c ≠ u := by
  intro h
  have h2 := toLower_toNat_not_upper c
  rw [h] at h2
  omega

theorem genLoop_length (text : List Char) (cs : Nat) (per : ℚ) :
    ∀ (n i : Nat) (t : ℚ), (genLoop text cs per n i t).length = n
  | 0, _, _ => rfl
  | n + 1, i, t => by
    rw [genLoop]
    simp only [List.length_cons]
    rw [genLoop_length text cs per n (i + 1) (t + per)]

theorem genLoop_get_time (text : List Char) (cs : Nat) (per : ℚ) :
    ∀ (n i : Nat) (t : ℚ) (j : Nat) (hj : j < (genLoop text cs per n i t).length),
      ((genLoop text cs per n i t).get ⟨j, hj⟩).time = t + j * per := by
  intro n
  induction n with
  | zero => intro i t j hj; simp [genLoop] at hj
  | succ n ih =>
    intro i t j hj
    match j with
    | 0 => simp [genLoop]
    | j + 1 =>
      have hj' : j < (genLoop text cs per n (i + 1) (t + per)).length := by
        rw [genLoop_length] at hj ⊢
        omega
      have hget : ((genLoop text cs per (n + 1) i t).get ⟨j + 1, hj⟩) =
          ((genLoop text cs per n (i + 1) (t + per)).get ⟨j, hj'⟩) := rfl
      rw [hget, ih (i + 1) (t + per) j hj']
      push_cast
      ring

theorem genLoop_chain (text : List Char) (cs : Nat) {per : ℚ} (hper : 0 ≤ per) :
    ∀ (n i : Nat) (t : ℚ),
      List.Chain' (· ≤ ·) ((genLoop text cs per n i t).map VisemeEvent.time) := by
  intro n
  induction n with
  | zero => intro i t; simp [genLoop]
  | succ n ih =>
    intro i t
    rw [genLoop, List.map_cons, List.chain'_cons']
    refine ⟨?_, ih (i + 1) (t + per)⟩
    intro y hy
    cases n with
    | zero => simp [genLoop] at hy
    | succ m =>
      rw [genLoop, List.map_cons, List.head?_cons, Option.mem_some_iff] at hy
      subst hy
      dsimp only
      linarith

theorem genLoop_head_time (text : List Char) (cs : Nat) (per : ℚ) :
    ∀ (n i : Nat) (t : ℚ), 0 < n →
      ((genLoop text cs per n i t).head?.map VisemeEvent.time) = some t
  | 0, _, _, h => absurd h (by omega)
  | _ + 1, _, _, _ => rfl

theorem countRunsAux_map (p : Char → Bool) (f : Char → Char) :
    ∀ (b : Bool) (l : List Char),
      countRunsAux p b (l.map f) = countRunsAux (fun c => p (f c)) b l
  | _, [] => rfl
  | b, c :: rest => by
    rw [List.map_cons, countRunsAux, countRunsAux]
    by_cases h : p (f c) = true
    · rw [if_pos h, if_pos h]
      cases b
      · simp only [countRunsAux_map p f true rest]
      · simp only [countRunsAux_map p f true rest]
    · rw [if_neg h, if_neg h, countRunsAux_map p f false rest]

theorem vowelRunCount_eq (text : List Char) :
    vowelRunCount text = countRuns (fun c => isVowel (Char.toLower c)) text := by
  unfold vowelRunCount countRuns
  exact countRunsAux_map isVowel Char.toLower false text

/-! ### The claims -/

/-- C1: for every string `text` and duration `d`, `generateVisemeSequence text d`
returns a sequence of exactly `estimateSyllables text` viseme events (and hence a
non-empty one), even when `text` has fewer characters than the syllable
estimate. -/
theorem generateVisemeSequence_length (text : List Char) (d : ℚ) :
    (generateVisemeSequence text d).length = estimateSyllables text ∧
    0 < (generateVisemeSequence text d).length := by
  have h : (generateVisemeSequence text d).length = estimateSyllables text :=
    genLoop_length text _ _ (estimateSyllables text) 0 0
  refine ⟨h, ?_⟩
  rw [h]
  exact one_le_estimateSyllables text

/-- C2: for `d > 0` the event offsets of `generateVisemeSequence text d` start
at 0, are non-decreasing, the `j`-th offset equals
`j * (d / estimateSyllables text)` exactly, and consecutive offsets differ by
exactly `d / estimateSyllables text`. -/
theorem generateVisemeSequence_offsets (text : List Char) (d : ℚ) (hd : 0 < d) :
    ((generateVisemeSequence text d).head?.map VisemeEvent.time = some 0) ∧
    List.Chain' (· ≤ ·) ((generateVisemeSequence text d).map VisemeEvent.time) ∧
    (∀ (j : Nat) (hj : j < (generateVisemeSequence text d).length),
      ((generateVisemeSequence text d).get ⟨j, hj⟩).time
        = (j : ℚ) * (d / (estimateSyllables text : ℚ))) ∧
    (∀ (j : Nat) (hj1 : j < (generateVisemeSequence text d).length)
        (hj2 : j + 1 < (generateVisemeSequence text d).length),
      ((generateVisemeSequence text d).get ⟨j + 1, hj2⟩).time
          - ((generateVisemeSequence text d).get ⟨j, hj1⟩).time
        = d / (estimateSyllables text : ℚ)) := by
  have hsyl := one_le_estimateSyllables text
  have hper : (0 : ℚ) ≤ d / (estimateSyllables text : ℚ) :=
    div_nonneg hd.le (Nat.cast_nonneg _)
  refine ⟨?_, ?_, ?_, ?_⟩
  · exact genLoop_head_time text _ _ (estimateSyllables text) 0 0 (by omega)
  · exact genLoop_chain text _ hper (estimateSyllables text) 0 0
  · intro j hj
    have h := genLoop_get_time text
      (max 1 ⌈(text.length : ℚ) / (estimateSyllables text : ℚ)⌉₊)
      (d / (estimateSyllables text : ℚ)) (estimateSyllables text) 0 0 j hj
    exact h.trans (zero_add _)
  · intro j hj1 hj2
    have h1 := genLoop_get_time text
      (max 1 ⌈(text.length : ℚ) / (estimateSyllables text : ℚ)⌉₊)
      (d / (estimateSyllables text : ℚ)) (estimateSyllables text) 0 0 (j + 1) hj2
    have h2 := genLoop_get_time text
      (max 1 ⌈(text.length : ℚ) / (estimateSyllables text : ℚ)⌉₊)
      (d / (estimateSyllables text : ℚ)) (estimateSyllables text) 0 0 j hj1
    rw [show ((generateVisemeSequence text d).get ⟨j + 1, hj2⟩).time
        = 0 + (((j + 1 : Nat)) : ℚ) * (d / (estimateSyllables text : ℚ)) from h1,
      show ((generateVisemeSequence text d).get ⟨j, hj1⟩).time
        = 0 + ((j : Nat) : ℚ) * (d / (estimateSyllables text : ℚ)) from h2]
    push_cast
    ring

/-- C2 witness: the claim instantiated at `text = "Hello"`, `d = 2`. -/
theorem generateVisemeSequence_offsets_witness :
    (0 : ℚ) < 2 ∧
    (((generateVisemeSequence "Hello".toList 2).head?.map VisemeEvent.time = some 0) ∧
    List.Chain' (· ≤ ·) ((generateVisemeSequence "Hello".toList 2).map VisemeEvent.time) ∧
    (∀ (j : Nat) (hj : j < (generateVisemeSequence "Hello".toList 2).length),
      ((generateVisemeSequence "Hello".toList 2).get ⟨j, hj⟩).time
        = (j : ℚ) * (2 / (estimateSyllables "Hello".toList : ℚ))) ∧
    (∀ (j : Nat) (hj1 : j < (generateVisemeSequence "Hello".toList 2).length)
        (hj2 : j + 1 < (generateVisemeSequence "Hello".toList 2).length),
      ((generateVisemeSequence "Hello".toList 2).get ⟨j + 1, hj2⟩).time
          - ((generateVisemeSequence "Hello".toList 2).get ⟨j, hj1⟩).time
        = 2 / (estimateSyllables "Hello".toList : ℚ))) :=
  ⟨by norm_num, generateVisemeSequence_offsets "Hello".toList 2 (by norm_num)⟩

/-- C4: `estimateSpeechDuration text 160` equals
`max 0.5 ((wordCount / 160) * 60)` where `wordCount` is the number of
non-empty whitespace-separated tokens with a minimum of 1; in particular the
result is at least half a second. -/
theorem estimateSpeechDuration_formula (text : List Char) :
    estimateSpeechDuration text 160
        = max (1/2) (((wordCount text : ℚ) / 160) * 60) ∧
    (1/2 : ℚ) ≤ estimateSpeechDuration text 160 ∧
    1 ≤ wordCount text :=
  ⟨rfl, le_max_left _ _, one_le_wordCount text⟩

/-- C5: `estimateSyllables text` is the number of maximal vowel runs
(case-insensitive) when at least one exists, and otherwise
`round(wordCount * 1.5)` (= `(3 * wordCount + 1) / 2` by half-up rounding)
with a minimum of 1; in particular it is always at least 1. -/
theorem estimateSyllables_formula (text : List Char) :
    estimateSyllables text
        = (if 0 < vowelRunCount text then vowelRunCount text
           else max 1 ((3 * wordCount text + 1) / 2)) ∧
    vowelRunCount text = countRuns (fun c => isVowel (Char.toLower c)) text ∧
    1 ≤ estimateSyllables text := by
  refine ⟨?_, vowelRunCount_eq text, one_le_estimateSyllables text⟩
  simp only [estimateSyllables]
  split
  · rfl
  · rw [jsRound_nat_mul_three_halves, Int.toNat_natCast]

theorem estimateSyllables_nil : estimateSyllables ([] : List Char) = 2 := by
  simp only [estimateSyllables]
  rw [show vowelRunCount ([] : List Char) = 0 from rfl,
    show wordCount ([] : List Char) = 1 from rfl]
  rw [show ((1 : Nat) : ℚ) * 1.5 = ((1 : Nat) : ℚ) * 1.5 from rfl]
  rw [jsRound_nat_mul_three_halves 1, Int.toNat_natCast]
  rfl

theorem estimateSpeechDuration_nil :
    estimateSpeechDuration ([] : List Char) 160 = 1/2 := by
  have h : estimateSpeechDuration ([] : List Char) 160
      = max (1/2) (((wordCount ([] : List Char) : ℚ)) / 160 * 60) := rfl
  rw [h, show wordCount ([] : List Char) = 1 from rfl]
  rw [max_eq_left (by norm_num : ((1 : Nat) : ℚ) / 160 * 60 ≤ 1/2)]

/-- C6 counterexample: on the empty string the code yields 2 syllables, not 1,
so the claim as stated is false. -/
theorem empty_input_claim_false :
    ¬ (estimateSpeechDuration ([] : List Char) 160 = 1/2 ∧
       estimateSyllables ([] : List Char) = 1) := by
  intro h
  exact absurd (estimateSyllables_nil.symm.trans h.2) (by decide)

/-- C6 amended: on the empty string `estimateSpeechDuration` returns the
minimum duration 0.5 s and `estimateSyllables` returns 2
(`round(1 * 1.5)` via the fallback path). -/
theorem empty_input_minimums :
    estimateSpeechDuration ([] : List Char) 160 = 1/2 ∧
    estimateSyllables ([] : List Char) = 2 :=
  ⟨estimateSpeechDuration_nil, estimateSyllables_nil⟩

/-- C3: `pickVisemeForChunk` agrees with the spec's `classify` rule list on
every fragment: `{o,u} → round`, else `{i,e,a} → wide`, else
`{b,m,p,f,v,w} → closed`, else `{t,d,k,g} → closed`, else `{s,h} → wide`,
else `open`, evaluated case-insensitively, first match winning. -/
theorem pickVisemeForChunk_eq_classifySpec (chunk : List Char) :
    pickVisemeForChunk chunk = classifySpec chunk := by
  have hO : ∀ ch : Char, (Char.toLower ch = 'O') = False :=
    fun ch => eq_false (toLower_ne_of_upper (by decide) ch)
  have hA : ∀ ch : Char, (Char.toLower ch = 'A') = False :=
    fun ch => eq_false (toLower_ne_of_upper (by decide) ch)
  have hE : ∀ ch : Char, (Char.toLower ch = 'E') = False :=
    fun ch => eq_false (toLower_ne_of_upper (by decide) ch)
  have hI : ∀ ch : Char, (Char.toLower ch = 'I') = False :=
    fun ch => eq_false (toLower_ne_of_upper (by decide) ch)
  have hM : ∀ ch : Char, (Char.toLower ch = 'M') = False :=
    fun ch => eq_false (toLower_ne_of_upper (by decide) ch)
  have hB : ∀ ch : Char, (Char.toLower ch = 'B') = False :=
    fun ch => eq_false (toLower_ne_of_upper (by decide) ch)
  have hP : ∀ ch : Char, (Char.toLower ch = 'P') = False :=
    fun ch => eq_false (toLower_ne_of_upper (by decide) ch)
  have hF : ∀ ch : Char, (Char.toLower ch = 'F') = False :=
    fun ch => eq_false (toLower_ne_of_upper (by decide) ch)
  have hV : ∀ ch : Char, (Char.toLower ch = 'V') = False :=
    fun ch => eq_false (toLower_ne_of_upper (by decide) ch)
  have hT : ∀ ch : Char, (Char.toLower ch = 'T') = False :=
    fun ch => eq_false (toLower_ne_of_upper (by decide) ch)
  have hD : ∀ ch : Char, (Char.toLower ch = 'D') = False :=
    fun ch => eq_false (toLower_ne_of_upper (by decide) ch)
  have hK : ∀ ch : Char, (Char.toLower ch = 'K') = False :=
    fun ch => eq_false (toLower_ne_of_upper (by decide) ch)
  have hG : ∀ ch : Char, (Char.toLower ch = 'G') = False :=
    fun ch => eq_false (toLower_ne_of_upper (by decide) ch)
  have hS : ∀ ch : Char, (Char.toLower ch = 'S') = False :=
    fun ch => eq_false (toLower_ne_of_upper (by decide) ch)
  have hH : ∀ ch : Char, (Char.toLower ch = 'H') = False :=
    fun ch => eq_false (toLower_ne_of_upper (by decide) ch)
  simp only [pickVisemeForChunk, classifySpec, List.any_map, Function.comp_def]
  simp only [hO, hA, hE, hI, hM, hB, hP, hF, hV, hT, hD, hK, hG, hS, hH, or_false,
    false_or]

theorem driver_raf_update_self (x : DriverState) (h : x.visemeRAF = false) :
    ({ x with visemeRAF := false } : DriverState) = x := by
  cases x with
  | mk raf mt jaw mc jb => simp_all

theorem stopVisemePlayback_raf (s : DriverState) :
    (stopVisemePlayback s).visemeRAF = false := by
  rw [stopVisemePlayback_eq]
  rfl

theorem applyViseme_neutral_neutralState :
    applyViseme .neutral neutralState = neutralState := by
  have hm : setKeys smileKeys (smileValue .neutral)
      (setKeys mouthOpenKeys (mouthValue .neutral) (fun _ => (0:ℚ))) = fun _ => (0:ℚ) := by
    funext k
    rw [setKeys_apply, setKeys_apply]
    simp [smileValue, mouthValue]
  simp [applyViseme, neutralState, hm]

/-- C7: starting a new viseme sequence first cancels the previous playback
and resets every mouth channel to neutral (weight 0) before any event of the
new sequence is applied; the active sequence is exactly the new one, its
cursor is at 0, and any later frame applies only visemes of the new
sequence. -/
theorem startVisemePlayback_supersedes (seq : List VisemeEvent) (now : ℚ) (s : DriverState) :
    (∀ k : String,
      (startVisemePlayback seq now s).driver.morphTargetTargets k =
        if k ∈ smileKeys ∨ k ∈ mouthOpenKeys then 0 else s.morphTargetTargets k) ∧
    (startVisemePlayback seq now s).driver.targetJawOpen
        = (if s.morphMeshCount = 0 ∧ s.hasJawBone then 0 else s.targetJawOpen) ∧
    (startVisemePlayback seq now s).seq = seq ∧
    (startVisemePlayback seq now s).idx = 0 ∧
    (startVisemePlayback seq now s).finished = false ∧
    (startVisemePlayback seq now s).driver.visemeRAF = true ∧
    (∀ t : ℚ, stepApplied t (startVisemePlayback seq now s) ⊆ seq.map VisemeEvent.viseme) := by
  refine ⟨?_, ?_, rfl, rfl, rfl, rfl, ?_⟩
  · intro k
    have h : (startVisemePlayback seq now s).driver.morphTargetTargets
        = (stopVisemePlayback s).morphTargetTargets := rfl
    rw [h, stopVisemePlayback_eq, applyViseme_targets]
    by_cases h1 : k ∈ smileKeys <;> by_cases h2 : k ∈ mouthOpenKeys <;>
      simp [h1, h2, smileValue, mouthValue]
  · have h : (startVisemePlayback seq now s).driver.targetJawOpen
        = (stopVisemePlayback s).targetJawOpen := rfl
    rw [h, stopVisemePlayback_eq]
    by_cases hc : s.morphMeshCount = 0 ∧ s.hasJawBone = true <;>
      simp [applyViseme, mouthValue, hc]
  · intro t v hv
    have h : stepApplied t (startVisemePlayback seq now s)
        = (runDue ((t - now) / 1000) seq (startVisemePlayback seq now s).driver).1 := rfl
    rw [h] at hv
    exact runDue_fst_subset _ seq _ hv

/-- C7 witness: the claim instantiated at a concrete sequence and state. -/
theorem startVisemePlayback_supersedes_witness :
    (∀ k : String,
      (startVisemePlayback [⟨0, .wide⟩] 5 neutralState).driver.morphTargetTargets k =
        if k ∈ smileKeys ∨ k ∈ mouthOpenKeys then 0 else neutralState.morphTargetTargets k) ∧
    (startVisemePlayback [⟨0, .wide⟩] 5 neutralState).driver.targetJawOpen
        = (if neutralState.morphMeshCount = 0 ∧ neutralState.hasJawBone then 0
           else neutralState.targetJawOpen) ∧
    (startVisemePlayback [⟨0, .wide⟩] 5 neutralState).seq = [⟨0, .wide⟩] ∧
    (startVisemePlayback [⟨0, .wide⟩] 5 neutralState).idx = 0 ∧
    (startVisemePlayback [⟨0, .wide⟩] 5 neutralState).finished = false ∧
    (startVisemePlayback [⟨0, .wide⟩] 5 neutralState).driver.visemeRAF = true ∧
    (∀ t : ℚ, stepApplied t (startVisemePlayback [⟨0, .wide⟩] 5 neutralState)
        ⊆ [⟨0, .wide⟩].map VisemeEvent.viseme) :=
  startVisemePlayback_supersedes [⟨0, .wide⟩] 5 neutralState

/-- C8: `stopVisemePlayback` is idempotent, is a no-op on an idle driver whose
mouth is already neutral, and always leaves every mouth channel at 0. -/
theorem stopVisemePlayback_idempotent (s : DriverState) :
    stopVisemePlayback (stopVisemePlayback s) = stopVisemePlayback s ∧
    (s.visemeRAF = false ∧ applyViseme .neutral s = s → stopVisemePlayback s = s) ∧
    (∀ k : String, k ∈ mouthOpenKeys ∨ k ∈ smileKeys →
      (stopVisemePlayback s).morphTargetTargets k = 0) := by
  refine ⟨?_, ?_, ?_⟩
  · rw [stopVisemePlayback_eq (stopVisemePlayback s),
      driver_raf_update_self _ (stopVisemePlayback_raf s), stopVisemePlayback_eq s]
    exact applyViseme_absorb .neutral .neutral _
  · rintro ⟨h1, h2⟩
    rw [stopVisemePlayback_eq, driver_raf_update_self s h1, h2]
  · intro k hk
    rw [stopVisemePlayback_eq, applyViseme_targets]
    rcases hk with hk | hk
    · by_cases h1 : k ∈ smileKeys <;> simp [h1, hk, smileValue, mouthValue]
    · simp [hk, smileValue]

/-- C8 witness: stopping twice equals stopping once, and stopping an idle
neutral driver is a no-op. -/
theorem stopVisemePlayback_idempotent_witness :
    stopVisemePlayback (stopVisemePlayback neutralState) = stopVisemePlayback neutralState ∧
    stopVisemePlayback neutralState = neutralState :=
  ⟨(stopVisemePlayback_idempotent neutralState).1,
    (stopVisemePlayback_idempotent neutralState).2.1 ⟨rfl, applyViseme_neutral_neutralState⟩⟩

theorem mouthValue_closed : mouthValue .closed = 0 := rfl

theorem mouthValue_wide : mouthValue .wide = 0.6 := rfl

theorem mouthValue_open : mouthValue .«open» = 0.9 := rfl

theorem mouthValue_round : mouthValue .round = 0.8 := rfl

theorem mouthValue_neutral : mouthValue .neutral = 0 := rfl

theorem smileValue_wide : smileValue .wide = 0.4 := rfl

theorem smileValue_closed : smileValue .closed = 0 := rfl

theorem smileValue_open : smileValue .«open» = 0 := rfl

theorem smileValue_round : smileValue .round = 0 := rfl

theorem smileValue_neutral : smileValue .neutral = 0 := rfl

/-- C9: `applyViseme` writes exactly the mapping
`closed→0, wide→0.6, open→0.9, round→0.8, neutral→0` to the mouth-open
channels and `0.4` for `wide` (else `0`) to the smile channels, leaving other
channels untouched; all written weights lie in `[0,1]`. -/
theorem applyViseme_mapping (v : Viseme) (s : DriverState) (k : String) :
    ((applyViseme v s).morphTargetTargets k =
      if k ∈ smileKeys then smileValue v
      else if k ∈ mouthOpenKeys then mouthValue v
      else s.morphTargetTargets k) ∧
    mouthValue .closed = 0 ∧ mouthValue .wide = 0.6 ∧ mouthValue .«open» = 0.9 ∧
    mouthValue .round = 0.8 ∧ mouthValue .neutral = 0 ∧
    smileValue .wide = 0.4 ∧ smileValue .closed = 0 ∧ smileValue .«open» = 0 ∧
    smileValue .round = 0 ∧ smileValue .neutral = 0 ∧
    0 ≤ mouthValue v ∧ mouthValue v ≤ 1 ∧ 0 ≤ smileValue v ∧ smileValue v ≤ 1 := by
  refine ⟨applyViseme_targets v s k, rfl, rfl, rfl, rfl, rfl, rfl, rfl, rfl, rfl, rfl,
    ?_, ?_, ?_, ?_⟩ <;>
    cases v <;>
    norm_num [mouthValue_closed, mouthValue_wide, mouthValue_open, mouthValue_round,
      mouthValue_neutral, smileValue_wide, smileValue_closed, smileValue_open,
      smileValue_round, smileValue_neutral]

/-- C10: applying `closed` writes exactly the same driver state as applying
`neutral`: every mouth-open and smile channel set to 0 and the same jaw
fallback scalar. -/
theorem applyViseme_closed_eq_neutral (s : DriverState) :
    applyViseme .closed s = applyViseme .neutral s := rfl

end BookTalk
